import Mathlib

/-!
Shallow embedding of the paginated-table harvester scripts
(hello.py, scrape_practitioners.py, scrape_pharmacists_register.py,
scrape_practitioners_with_logs.py, scrape_practitioners_with_details.py,
scrape_pharmacists_paginated.py) and proofs of the spec claims about them.

Markup documents are modelled at the granularity the scripts consume them:
an anchor carries its string child, href, class list and rel list; a table
cell carries its trimmed text, its anchors and the value attribute of a
contained input; a page carries the rows of its first table, the anchors of
the dataTables_paginate container, all anchors of the document, the text of
the dataTables_info element, and the form-group divs.  HTTP is modelled by
an oracle from a locator to a fetch result: a parsed page, a non-success
status, or a connection failure (a raised requests exception).  The urljoin
function of urllib is kept abstract as a parameter.
-/

namespace Scrape

/-- Substring test on character lists: does the second list occur
contiguously inside the first?  Used to model the Python `in` operator on
strings. -/
def containsSub (needle : List Char) : List Char → Bool
  | [] => needle.isPrefixOf ([] : List Char)
  | c :: t => needle.isPrefixOf (c :: t) || containsSub needle t

/-- `needle in hay` on strings, as in Python. -/
def strContainsSub (hay needle : String) : Bool :=
  containsSub needle.data hay.data

/-- Python `str.lower()` on the ASCII strings the scripts handle:
character-wise lower-casing. -/
def strLower (s : String) : String :=
  String.mk (s.data.map Char.toLower)

/-- ASCII whitespace, the class stripped by Python `str.strip()` and
matched by the regex class backslash-s. -/
def isWsChar (c : Char) : Bool :=
  c == ' ' || c == '\t' || c == '\n' || c == '\r' ||
  c == Char.ofNat 11 || c == Char.ofNat 12

/-- Python `str.strip()`: remove whitespace from both ends. -/
def strTrim (s : String) : String :=
  String.mk (((s.data.dropWhile isWsChar).reverse.dropWhile isWsChar).reverse)

/-- Models the predicate `lambda text: text and "next" in text.lower()`
applied to the string child of an anchor (bs4 gives `None` when the anchor
has no single string child; the empty string is falsy in Python). -/
def textMatchesNext : Option String → Bool
  | none => false
  | some s => (s != "") && strContainsSub (strLower s) "next"

/-- An `<a>` element as the scripts consume it. -/
structure Anchor where
  text : Option String
  href : Option String
  classes : List String
  rel : List String
deriving DecidableEq

/-- A table cell (`<td>` or `<th>`): its trimmed text, the anchors it
contains in document order, and the value attribute of the first contained
input that has one. -/
structure Cell where
  isTh : Bool
  text : String
  anchors : List Anchor
  inputValue : Option String
deriving DecidableEq

/-- A `<tr>` element: its cells in document order. -/
structure Tr where
  cells : List Cell
deriving DecidableEq

/-- A `div.form-group`: the text of its first label and of its first inner
div, when present. -/
structure FormGroup where
  label : Option String
  val : Option String
deriving DecidableEq

/-- One fetched page, at the granularity the scripts consume it:
`table` is the row list of the first `<table>` (none when no table),
`paginateAnchors` the anchors of the `div.dataTables_paginate` container
(none when no such div), `anchors` all anchors of the document,
`infoText` the trimmed text of `div.dataTables_info`, and `formGroups`
the `div.form-group` elements. -/
structure Page where
  table : Option (List Tr)
  paginateAnchors : Option (List Anchor)
  anchors : List Anchor
  infoText : Option String
  formGroups : List FormGroup
deriving DecidableEq

/-- Outcome of one `requests.get`: a parsed page with status 200, a
non-success status, or a raised connection exception. -/
inductive FetchResult where
  | ok (page : Page)
  | httpError
  | connError
deriving DecidableEq

/-- Outcome of a fuel-indexed driving loop: the loop returned its
accumulated rows, an uncaught Python exception propagated out of it, or the
fuel ran out before the loop finished (used to reason about
non-termination). -/
inductive LoopOut (α : Type) where
  | finished (rows : List α)
  | raised
  | fuelOut
deriving DecidableEq

/-- The `<td>` cells of a row: `row.find_all("td")`. -/
def tds (tr : Tr) : List Cell :=
  tr.cells.filter (fun c => !c.isTh)

/-- The next-page link computation shared verbatim by scrape_category
(scrape_practitioners.py lines 38-54, scrape_practitioners_with_logs.py
lines 128-142, scrape_practitioners_with_details.py lines 98-114) and
scrape_pharmacists (scrape_pharmacists_register.py lines 37-51): inside the
dataTables_paginate container, find the first anchor whose string child
contains "next" case-insensitively; if it exists, is not classed disabled
and has a truthy href, join that href against the current URL; otherwise
fall back to the first anchor of the whole page whose rel list contains
"next" and join its truthy href. -/
def next_link (uj : String → String → String) (currentUrl : String)
    (page : Page) : Option String :=
  let nl1 : Option String :=
    match page.paginateAnchors with
    | some ancs =>
      match ancs.find? (fun a => textMatchesNext a.text) with
      | some a =>
        if a.classes.contains "disabled" then none
        else
          match a.href with
          | some h => if h = "" then none else some (uj currentUrl h)
          | none => none
      | none => none
    | none => none
  match nl1 with
  | some l => some l
  | none =>
    match page.anchors.find? (fun a => a.rel.contains "next") with
    | some a =>
      match a.href with
      | some h => if h = "" then none else some (uj currentUrl h)
      | none => none
    | none => none

/-- Data-row extraction of the plain scrapers (scrape_practitioners.py
lines 30-36, scrape_pharmacists_register.py lines 29-36): skip the first
row, and for each remaining row with a nonempty td list emit the trimmed
cell texts. -/
def extractRows (trs : List Tr) : List (List String) :=
  (trs.drop 1).filterMap (fun tr =>
    let cols := tds tr
    if cols.isEmpty then none
    else some (cols.map (fun c => c.text)))

/-- The driving while-loop of scrape_category (scrape_practitioners.py
lines 14-61) and scrape_pharmacists (scrape_pharmacists_register.py lines
13-57), indexed by fuel.  A non-success status or a missing table breaks
the loop with the rows collected so far; a connection failure is an
uncaught exception; otherwise the rows of this page are appended and the
loop follows the next link unless it is falsy or equals the current URL. -/
def scrape_category (uj : String → String → String)
    (fetch : String → FetchResult) :
    Nat → String → List (List String) → LoopOut (List String)
  | 0, _, _ => LoopOut.fuelOut
  | fuel + 1, url, acc =>
    match fetch url with
    | FetchResult.connError => LoopOut.raised
    | FetchResult.httpError => LoopOut.finished acc
    | FetchResult.ok page =>
      match page.table with
      | none => LoopOut.finished acc
      | some trs =>
        let acc2 := acc ++ extractRows trs
        match next_link uj url page with
        | some nl =>
          if nl = "" || nl = url then LoopOut.finished acc2
          else scrape_category uj fetch fuel nl acc2
        | none => LoopOut.finished acc2

/-- The run from a seed locator terminates (normally or by an uncaught
exception): some finite fuel suffices for the loop to finish. -/
def Terminates (uj : String → String → String)
    (fetch : String → FetchResult) (seed : String) : Prop :=
  ∃ fuel, scrape_category uj fetch fuel seed [] ≠ LoopOut.fuelOut

/-- The record built by scrape_details: the three known detail fields,
each a string or absent (Python None). -/
structure DetailRecord where
  practiceType : Option String
  licenceType : Option String
  licenceNo : Option String
deriving DecidableEq

/-- The all-absent detail record `{"Practice_Type": None, "Licence_Type":
None, "Licence_No": None}`. -/
def detailAbsent : DetailRecord :=
  { practiceType := none, licenceType := none, licenceNo := none }

/-- One label/value assignment step of scrape_details
(scrape_practitioners_with_logs.py lines 45-50 and 64-69): the label is
already lower-cased; the first matching known substring selects the field
that receives the value. -/
def updDetail (d : DetailRecord) (label v : String) : DetailRecord :=
  if strContainsSub label "practice type" then
    { d with practiceType := some v }
  else if strContainsSub label "licence type" ||
      strContainsSub label "license type" then
    { d with licenceType := some v }
  else if strContainsSub label "licence no" ||
      strContainsSub label "license no" then
    { d with licenceNo := some v }
  else d

/-- The value taken from the second cell of a detail row
(scrape_practitioners_with_logs.py lines 40-44): the stripped value
attribute of a contained input when one has it, the trimmed cell text
otherwise. -/
def cellValue (c : Cell) : String :=
  match c.inputValue with
  | some v => strTrim v
  | none => c.text

/-- One row of the table-based extraction of scrape_details
(scrape_practitioners_with_logs.py lines 34-50): rows with fewer than two
cells (th or td) are skipped, the first cell is the lower-cased label, the
second the value. -/
def detailStep (d : DetailRecord) (tr : Tr) : DetailRecord :=
  match tr.cells with
  | c0 :: c1 :: _ => updDetail d (strLower c0.text) (cellValue c1)
  | _ => d

/-- Table-based extraction of scrape_details over all rows of the first
table, folding from the current record. -/
def detailFromTable (d : DetailRecord) (trs : List Tr) : DetailRecord :=
  trs.foldl detailStep d

/-- One form-group of the div-based fallback of scrape_details
(scrape_practitioners_with_logs.py lines 57-69): groups whose label or
inner div is missing are skipped. -/
def groupStep (d : DetailRecord) (g : FormGroup) : DetailRecord :=
  match g.label, g.val with
  | some l, some v => updDetail d (strLower l) v
  | _, _ => d

/-- Div-based fallback extraction of scrape_details over all form-groups,
folding from the current record. -/
def detailFromGroups (d : DetailRecord) (gs : List FormGroup) : DetailRecord :=
  gs.foldl groupStep d

/-- Python `any(details.values())`: some field holds a truthy (non-None,
nonempty) string. -/
def detailHasAny (d : DetailRecord) : Bool :=
  (match d.practiceType with | some s => s != "" | none => false) ||
  (match d.licenceType with | some s => s != "" | none => false) ||
  (match d.licenceNo with | some s => s != "" | none => false)

/-- scrape_details of scrape_practitioners_with_logs.py (lines 7-71): a
raised requests exception or a non-success status yields the all-absent
record; otherwise the first table is folded over, the result is returned
when some field is truthy, and the form-group fallback continues from the
(possibly partially filled) record otherwise. -/
def scrape_details (fetch : String → FetchResult) (url : String) :
    DetailRecord :=
  match fetch url with
  | FetchResult.connError => detailAbsent
  | FetchResult.httpError => detailAbsent
  | FetchResult.ok page =>
    match page.table with
    | some trs =>
      let d := detailFromTable detailAbsent trs
      if detailHasAny d then d else detailFromGroups d page.formGroups
    | none => detailFromGroups detailAbsent page.formGroups

/-- The designated detail-link marker: bs4 `find("a", class_="btn
btn-info")`, which with a space in the searched string matches the exact
class attribute value. -/
def isBtnInfo (a : Anchor) : Bool :=
  a.classes == ["btn", "btn-info"]

/-- The view link taken from the last cell of a marked row
(scrape_practitioners_with_logs.py line 109): the href of the FIRST anchor
of the cell (no class filter on this second find), when present and
truthy. -/
def viewLinkOf (lastCell : Cell) : Option String :=
  match lastCell.anchors.head? with
  | some a =>
    match a.href with
    | some h => if h = "" then none else some h
    | none => none
  | none => none

/-- Row processing of the enrichment-enabled scrape_category
(scrape_practitioners_with_logs.py lines 98-127): rows with no td cells
are skipped; when the last cell contains an anchor classed "btn btn-info"
the last cell is dropped from the plain output and the view link of that
cell is followed for details, appending the three detail fields (or three
absent values when the link href is missing or falsy); when no marker is
present no cell is dropped, the view link is None, and three absent values
are appended.  (The source assigns row_data and view_link in one branch on
the marker and then branches on view_link; view_link is None whenever the
marker is absent, so branching on the marker first is the same
function.) -/
def processRowLogs (uj : String → String → String)
    (fetch : String → FetchResult) (currentUrl : String) (tr : Tr) :
    Option (List (Option String)) :=
  match (tds tr).getLast? with
  | none => none
  | some lastCell =>
    let raw : List (Option String) := (tds tr).map (fun c => some c.text)
    match lastCell.anchors.find? isBtnInfo with
    | some _ =>
      match viewLinkOf lastCell with
      | some vl =>
        let d := scrape_details fetch (uj currentUrl vl)
        some (raw.dropLast ++ [d.practiceType, d.licenceType, d.licenceNo])
      | none => some (raw.dropLast ++ [none, none, none])
    | none => some (raw ++ [none, none, none])

/-- Whether the last td cell of a row carries the detail-link marker. -/
def rowHasMarker (tr : Tr) : Bool :=
  match (tds tr).getLast? with
  | some c => (c.anchors.find? isBtnInfo).isSome
  | none => false

/-- All enriched rows produced from one page by
scrape_practitioners_with_logs.py (header row skipped). -/
def pageRowsLogs (uj : String → String → String)
    (fetch : String → FetchResult) (currentUrl : String) (trs : List Tr) :
    List (List (Option String)) :=
  (trs.drop 1).filterMap (processRowLogs uj fetch currentUrl)

/-- The driving while-loop of the enrichment-enabled scrape_category
(scrape_practitioners_with_logs.py lines 80-148), indexed by fuel; the
pagination logic is the one of `next_link`. -/
def scrapeLogsLoop (uj : String → String → String)
    (fetch : String → FetchResult) :
    Nat → String → List (List (Option String)) →
    LoopOut (List (Option String))
  | 0, _, _ => LoopOut.fuelOut
  | fuel + 1, url, acc =>
    match fetch url with
    | FetchResult.connError => LoopOut.raised
    | FetchResult.httpError => LoopOut.finished acc
    | FetchResult.ok page =>
      match page.table with
      | none => LoopOut.finished acc
      | some trs =>
        let acc2 := acc ++ pageRowsLogs uj fetch url trs
        match next_link uj url page with
        | some nl =>
          if nl = "" || nl = url then LoopOut.finished acc2
          else scrapeLogsLoop uj fetch fuel nl acc2
        | none => LoopOut.finished acc2

/-- Header extension of scrape_practitioners_with_logs.py get_table_header
(lines 160-168): drop the last header cell when its lower-case text is
"view", then append the three detail column names. -/
def extendedHeaderLogs (hdr : List String) : List String :=
  let base :=
    match hdr.getLast? with
    | some s => if strLower s = "view" then hdr.dropLast else hdr
    | none => hdr
  base ++ ["Practice_Type", "Licence_Type", "Licence_No"]

/-- The character class of digits and thousands separators in the
total-count pattern. -/
def isDigitOrComma (c : Char) : Bool :=
  c.isDigit || c == ','

/-- Match of the pattern `of` backslash-s+ `([0-9,]+)` backslash-s+
`entries` at the start of the given character list, returning the captured
group.  The three character classes of the pattern are pairwise disjoint
and followed by tokens outside the class, so maximal munch coincides with
regex backtracking here. -/
def matchTotalAt : List Char → Option (List Char)
  | 'o' :: 'f' :: rest =>
    let ws1 := rest.takeWhile isWsChar
    let r1 := rest.dropWhile isWsChar
    if ws1.isEmpty then none
    else
      let num := r1.takeWhile isDigitOrComma
      let r2 := r1.dropWhile isDigitOrComma
      if num.isEmpty then none
      else
        let ws2 := r2.takeWhile isWsChar
        let r3 := r2.dropWhile isWsChar
        if ws2.isEmpty then none
        else if (['e', 'n', 't', 'r', 'i', 'e', 's'] : List Char).isPrefixOf r3
        then some num
        else none
  | _ => none

/-- `re.search` of the total-count pattern: the match at the leftmost
starting position, scanning left to right. -/
def searchTotal : List Char → Option (List Char)
  | [] => none
  | c :: cs =>
    match matchTotalAt (c :: cs) with
    | some n => some n
    | none => searchTotal cs

/-- Decimal value of a digit list. -/
def digitsToNat (ds : List Char) : Nat :=
  ds.foldl (fun n c => n * 10 + (c.toNat - 48)) 0

/-- get_total_entries of scrape_pharmacists_paginated.py (lines 7-21),
given the trimmed text of the dataTables_info div (none when the div is
missing): search the total-count pattern, strip commas from the captured
group and convert to an integer; a conversion failure (an all-comma
capture leaves the empty string, on which int raises) yields none. -/
def get_total_entries (infoText : Option String) : Option Nat :=
  match infoText with
  | none => none
  | some t =>
    match searchTotal t.data with
    | none => none
    | some num =>
      let ds := num.filter (fun c => c != ',')
      if ds.isEmpty then none else some (digitsToNat ds)

/-- Outcome of scrape_page of scrape_pharmacists_paginated.py: a raised
requests exception, or the returned triple (header, data rows, total
entries), each component possibly None. -/
inductive PageOut where
  | raised
  | ret (header : Option (List String)) (rows : Option (List (List String)))
      (total : Option Nat)
deriving DecidableEq

/-- scrape_page of scrape_pharmacists_paginated.py (lines 23-73), with the
fetch oracle keyed by the start offset (the request URL is determined by
the start and length query parameters; all call sites fix length at 100).
A non-success status returns the all-None triple; the total is parsed only
on the first page; a missing table or header row returns None header and
rows; data rows with no td cells are skipped. -/
def scrape_page (fetch : Nat → FetchResult) (start : Nat) : PageOut :=
  match fetch start with
  | FetchResult.connError => PageOut.raised
  | FetchResult.httpError => PageOut.ret none none none
  | FetchResult.ok page =>
    let total := if start = 0 then get_total_entries page.infoText else none
    match page.table with
    | none => PageOut.ret none none total
    | some trs =>
      match trs.head? with
      | none => PageOut.ret none none total
      | some headerRow =>
        let header := headerRow.cells.map (fun c => c.text)
        let data := (trs.drop 1).filterMap (fun tr =>
          let cells := tds tr
          if cells.isEmpty then none
          else some (cells.map (fun c => c.text)))
        PageOut.ret (some header) (some data) total

/-- Python `range(100, total, 100)`: the multiples of 100 in
[100, total), in ascending order. -/
def pageStarts (total : Nat) : List Nat :=
  (List.range total).filter (fun n => decide (100 ≤ n) && n % 100 == 0)

/-- The offset loop of main of scrape_pharmacists_paginated.py (lines
87-94): each start is fetched in turn; a raised exception propagates
(none); a truthy (nonempty) page row list is appended; a falsy one is
skipped and the loop continues. -/
def offsetLoop (fetch : Nat → FetchResult) :
    List Nat → List (List String) → Option (List (List String))
  | [], acc => some acc
  | s :: rest, acc =>
    match scrape_page fetch s with
    | PageOut.raised => none
    | PageOut.ret _ pd _ =>
      match pd with
      | some rows =>
        if rows.isEmpty then offsetLoop fetch rest acc
        else offsetLoop fetch rest (acc ++ rows)
      | none => offsetLoop fetch rest acc

/-- Outcome of the collection phase of main of
scrape_pharmacists_paginated.py: a raised exception, an early return with
no output, or the header and accumulated rows handed to output
construction. -/
inductive MainOut where
  | raised
  | aborted
  | wrote (header : List String) (rows : List (List String))
deriving DecidableEq

/-- The collection phase of main of scrape_pharmacists_paginated.py
(lines 75-96): fetch the first page; a None header or None data aborts the
harvest; a None total defaults to the first-page row count; then the
offset loop runs over range(100, total, 100). -/
def main_harvest (fetch : Nat → FetchResult) : MainOut :=
  match scrape_page fetch 0 with
  | PageOut.raised => MainOut.raised
  | PageOut.ret hdrOpt dataOpt totalOpt =>
    match hdrOpt, dataOpt with
    | some header, some data =>
      let total := totalOpt.getD data.length
      match offsetLoop fetch (pageStarts total) data with
      | some rows => MainOut.wrote header rows
      | none => MainOut.raised
    | _, _ => MainOut.aborted

/-- One emitted record of scrape_hcpcs_codes of hello.py:
`{"Code": ..., "Description": ...}`. -/
structure HcpcsRecord where
  code : String
  description : String
deriving DecidableEq

/-- One row step of scrape_hcpcs_codes (hello.py lines 28-33): rows with
at least two td cells append a record from the first two cells; all other
rows contribute nothing. -/
def hcpcsStep (data : List HcpcsRecord) (tr : Tr) : List HcpcsRecord :=
  match tds tr with
  | c0 :: c1 :: _ => data ++ [{ code := c0.text, description := c1.text }]
  | _ => data

/-- scrape_hcpcs_codes of hello.py (lines 6-34): a raised requests
exception propagates (none); a non-success status or a missing table
returns the empty list; otherwise the rows after the header row are
folded with `hcpcsStep`. -/
def scrape_hcpcs_codes (r : FetchResult) : Option (List HcpcsRecord) :=
  match r with
  | FetchResult.connError => none
  | FetchResult.httpError => some []
  | FetchResult.ok page =>
    match page.table with
    | none => some []
    | some trs => some ((trs.drop 1).foldl hcpcsStep [])

/-- The record selected from one row by the claimed behaviour of
scrape_hcpcs_codes: the first two td cells when there are at least two,
nothing otherwise. -/
def pick2 (tr : Tr) : Option HcpcsRecord :=
  match tds tr with
  | c0 :: c1 :: _ => some { code := c0.text, description := c1.text }
  | _ => none

/-- Claim-side next-link computation, following the words of the claim:
search the pagination container for an anchor whose visible text contains
"next" case-insensitively AND whose class list does not mark it disabled,
and resolve its href; only if that yields nothing, search the whole page
for an anchor with rel "next".  To be compared with `next_link`, the
computation translated from the code. -/
def nextLinkClaim (uj : String → String → String) (currentUrl : String)
    (page : Page) : Option String :=
  let fromContainer : Option String :=
    match page.paginateAnchors with
    | some ancs =>
      match ancs.find? (fun a =>
          textMatchesNext a.text && !(a.classes.contains "disabled")) with
      | some a =>
        match a.href with
        | some h => if h = "" then none else some (uj currentUrl h)
        | none => none
      | none => none
    | none => none
  match fromContainer with
  | some l => some l
  | none =>
    match page.anchors.find? (fun a => a.rel.contains "next") with
    | some a =>
      match a.href with
      | some h => if h = "" then none else some (uj currentUrl h)
      | none => none
    | none => none

/-- The first anchor of the pagination container whose string child
contains "next" case-insensitively. -/
def firstTextNextAnchor (page : Page) : Option Anchor :=
  page.paginateAnchors.bind (List.find? (fun a => textMatchesNext a.text))

/-- The link contributed by one anchor: its truthy href joined against the
current URL. -/
def anchorLink (uj : String → String → String) (currentUrl : String)
    (a : Anchor) : Option String :=
  a.href.bind (fun h => if h = "" then none else some (uj currentUrl h))

/-- Amended-claim-side next-link computation: take the first
text-matching anchor of the container; use it only when it is not classed
disabled and has a truthy href; in every other case fall back to the first
rel "next" anchor of the whole page. -/
def nextLinkAmended (uj : String → String → String) (currentUrl : String)
    (page : Page) : Option String :=
  let fromContainer : Option String :=
    match firstTextNextAnchor page with
    | some a =>
      if a.classes.contains "disabled" then none
      else anchorLink uj currentUrl a
    | none => none
  fromContainer.orElse (fun _ =>
    (page.anchors.find? (fun a => a.rel.contains "next")).bind
      (anchorLink uj currentUrl))

/-- A lower-cased label matches one of the known detail-field substrings
of scrape_details. -/
def labelMatches (l : String) : Bool :=
  strContainsSub l "practice type" ||
  strContainsSub l "licence type" || strContainsSub l "license type" ||
  strContainsSub l "licence no" || strContainsSub l "license no"

/-- A detail-table row contains no matching label: either it has fewer
than two cells (and is skipped) or its lower-cased first-cell text matches
no known substring. -/
def trMatchFree (tr : Tr) : Bool :=
  match tr.cells with
  | c0 :: _ :: _ => !labelMatches (strLower c0.text)
  | _ => true

/-- A form-group contains no matching label: either its label or inner div
is missing (and it is skipped) or its lower-cased label matches no known
substring. -/
def groupMatchFree (g : FormGroup) : Bool :=
  match g.label, g.val with
  | some l, some _ => !labelMatches (strLower l)
  | _, _ => true

/-- No matching label occurs anywhere scrape_details looks on the page:
neither in the rows of the first table nor in the form-groups. -/
def pageMatchFree (page : Page) : Bool :=
  (match page.table with
   | some trs => trs.all trMatchFree
   | none => true) && page.formGroups.all groupMatchFree

/-! Concrete fixtures for counterexamples and witnesses. -/

/-- A concrete join function for synthetic runs: every href in the
fixtures is absolute, and urljoin returns an absolute href unchanged. -/
def uj0 : String → String → String := fun _ h => h

/-- A page with no table, no pagination container, no anchors, no info div
and no form-groups. -/
def emptyPage : Page :=
  { table := none, paginateAnchors := none, anchors := [],
    infoText := none, formGroups := [] }

/-- A plain td cell with the given trimmed text. -/
def tdText (s : String) : Cell :=
  { isTh := false, text := s, anchors := [], inputValue := none }

/-- A plain th cell with the given trimmed text. -/
def thText (s : String) : Cell :=
  { isTh := true, text := s, anchors := [], inputValue := none }

/-- An anchor with rel "next" pointing at the given href. -/
def relNextAnchor (h : String) : Anchor :=
  { text := none, href := some h, classes := [], rel := ["next"] }

/-- Synthetic page whose rel-next link points at locator "B". -/
def pageToB : Page :=
  { emptyPage with table := some [], anchors := [relNextAnchor "B"] }

/-- Synthetic page whose rel-next link points at locator "A". -/
def pageToA : Page :=
  { emptyPage with table := some [], anchors := [relNextAnchor "A"] }

/-- Fetch oracle of a two-page cycle: "A" links to "B" and "B" back to
"A". -/
def fetchCycle : String → FetchResult := fun u =>
  if u = "A" then FetchResult.ok pageToB
  else if u = "B" then FetchResult.ok pageToA
  else FetchResult.httpError

/-- Synthetic page whose rel-next link points back at its own locator
"S". -/
def pageSelf : Page :=
  { emptyPage with table := some [], anchors := [relNextAnchor "S"] }

/-- Fetch oracle serving the self-linking page everywhere. -/
def fetchSelf : String → FetchResult := fun _ => FetchResult.ok pageSelf

/-- The detail-link marker anchor of the enrichment fixtures: classed
"btn btn-info" with href "D". -/
def btnAnchor : Anchor :=
  { text := some "View", href := some "D", classes := ["btn", "btn-info"],
    rel := [] }

/-- Header row of the enrichment fixture: Name and View columns. -/
def trHdr2 : Tr := { cells := [thText "Name", thText "View"] }

/-- A data row whose last cell carries the detail-link marker. -/
def trMark : Tr :=
  { cells := [tdText "Alice",
      { isTh := false, text := "view", anchors := [btnAnchor],
        inputValue := none }] }

/-- A data row with the same cell count and no detail link. -/
def trNoMark : Tr := { cells := [tdText "Bob", tdText "x"] }

/-- One-page fixture mixing a marked and an unmarked data row. -/
def pageMix : Page :=
  { emptyPage with table := some [trHdr2, trMark, trNoMark] }

/-- Fetch oracle of the mixed-row run: the seed "U" serves the mixed page
and every other locator (in particular the detail locator "D") fails with
a non-success status. -/
def fetchMix : String → FetchResult := fun u =>
  if u = "U" then FetchResult.ok pageMix else FetchResult.httpError

/-- The enriched row emitted for the marked row of the mixed fixture. -/
def rowMarkOut : List (Option String) := [some "Alice", none, none, none]

/-- The enriched row emitted for the unmarked row of the mixed fixture. -/
def rowNoMarkOut : List (Option String) :=
  [some "Bob", some "x", none, none, none]

/-- A page with one data row and a rel-next link to "B". -/
def pageOneRow : Page :=
  { emptyPage with
    table := some [{ cells := [thText "H"] }, { cells := [tdText "r1"] }],
    anchors := [relNextAnchor "B"] }

/-- Fetch oracle where the seed "A" succeeds and every further locator
raises a connection exception. -/
def fetchConn : String → FetchResult := fun u =>
  if u = "A" then FetchResult.ok pageOneRow else FetchResult.connError

/-- Header row of the offset-pagination fixtures. -/
def trHdrH : Tr := { cells := [thText "H"] }

/-- First offset page: one data row and a total of 300 entries in the
info div. -/
def pageStart0 : Page :=
  { emptyPage with
    table := some [trHdrH, { cells := [tdText "r0"] }],
    infoText := some "Showing 1 to 100 of 300 entries" }

/-- Offset page at start 200: one data row. -/
def pageStart200 : Page :=
  { emptyPage with table := some [trHdrH, { cells := [tdText "r200"] }] }

/-- Offset fetch oracle: start 0 and start 200 succeed, start 100 (and
everything else) fails with a non-success status. -/
def fetchOffsets : Nat → FetchResult := fun s =>
  if s = 0 then FetchResult.ok pageStart0
  else if s = 200 then FetchResult.ok pageStart200
  else FetchResult.httpError

/-- First container anchor of the pagination-order fixture: text "Next"
but classed disabled. -/
def aDisabledNext : Anchor :=
  { text := some "Next", href := some "p2", classes := ["disabled"],
    rel := [] }

/-- Second container anchor of the pagination-order fixture: text
matching "next", not disabled, href "p3". -/
def aSecondNext : Anchor :=
  { text := some "next page", href := some "p3", classes := [], rel := [] }

/-- Page whose pagination container holds a disabled "Next" anchor
followed by an enabled one. -/
def pageTwoNext : Page :=
  { emptyPage with paginateAnchors := some [aDisabledNext, aSecondNext] }

/-- A detail-table row with no matching label. -/
def trNameRow : Tr := { cells := [tdText "Name", tdText "John"] }

/-- Detail page with a table yielding nothing and a form-group carrying a
matching label. -/
def pageTableAndGroups : Page :=
  { emptyPage with
    table := some [trNameRow],
    formGroups := [{ label := some "Practice Type", val := some "GP" }] }

/-- Fetch oracle serving `pageTableAndGroups` everywhere. -/
def fetchTG : String → FetchResult :=
  fun _ => FetchResult.ok pageTableAndGroups

/-- A detail-table row whose label matches "practice type". -/
def trPT : Tr := { cells := [tdText "Practice Type", tdText "GP"] }

/-- Detail page whose table yields a truthy field. -/
def pagePT : Page := { emptyPage with table := some [trPT] }

/-- Fetch oracle serving `pagePT` everywhere. -/
def fetchPT : String → FetchResult := fun _ => FetchResult.ok pagePT

/-- Header row of the HCPCS fixture. -/
def trCodesHdr : Tr := { cells := [thText "Code", thText "Description"] }

/-- A data row with exactly one td cell. -/
def trShort : Tr := { cells := [tdText "lonely"] }

/-- A data row with three td cells. -/
def trLong : Tr :=
  { cells := [tdText "A0001", tdText "descA", tdText "extra"] }

/-- Table of the HCPCS fixture: header, a one-cell row, a three-cell
row. -/
def trsHcpcs : List Tr := [trCodesHdr, trShort, trLong]

/-- Page of the HCPCS fixture. -/
def pageHcpcs : Page := { emptyPage with table := some trsHcpcs }

/-! Helper lemmas. -/

/-- A label matching no known substring leaves the detail record
unchanged. -/
theorem updDetail_no_match (d : DetailRecord) (l v : String)
    (h : labelMatches l = false) : updDetail d l v = d := by
  unfold labelMatches at h
  simp only [Bool.or_eq_false_iff] at h
  obtain ⟨⟨⟨⟨h1, h2⟩, h3⟩, h4⟩, h5⟩ := h
  unfold updDetail
  simp [h1, h2, h3, h4, h5]

/-- A match-free detail-table row leaves the record unchanged. -/
theorem detailStep_id (d : DetailRecord) (tr : Tr)
    (h : trMatchFree tr = true) : detailStep d tr = d := by
  unfold trMatchFree at h
  unfold detailStep
  rcases hc : tr.cells with _ | ⟨c0, _ | ⟨c1, rest⟩⟩
  · rfl
  · rfl
  · rw [hc] at h
    exact updDetail_no_match d _ _ (by simpa using h)

/-- A match-free detail table leaves the record unchanged. -/
theorem detailFromTable_id (d : DetailRecord) (trs : List Tr)
    (h : trs.all trMatchFree = true) : detailFromTable d trs = d := by
  induction trs generalizing d with
  | nil => rfl
  | cons t ts ih =>
    rw [List.all_cons, Bool.and_eq_true] at h
    unfold detailFromTable at ih ⊢
    rw [List.foldl_cons, detailStep_id d t h.1]
    exact ih d h.2

/-- A match-free form-group leaves the record unchanged. -/
theorem groupStep_id (d : DetailRecord) (g : FormGroup)
    (h : groupMatchFree g = true) : groupStep d g = d := by
  unfold groupMatchFree at h
  unfold groupStep
  rcases hl : g.label with _ | l <;> rcases hv : g.val with _ | v
  · rfl
  · rfl
  · rfl
  · rw [hl, hv] at h
    exact updDetail_no_match d _ _ (by simpa using h)

/-- Match-free form-groups leave the record unchanged. -/
theorem detailFromGroups_id (d : DetailRecord) (gs : List FormGroup)
    (h : gs.all groupMatchFree = true) : detailFromGroups d gs = d := by
  induction gs generalizing d with
  | nil => rfl
  | cons g gs ih =>
    rw [List.all_cons, Bool.and_eq_true] at h
    unfold detailFromGroups at ih ⊢
    rw [List.foldl_cons, groupStep_id d g h.1]
    exact ih d h.2

/-- The fold of scrape_hcpcs_codes is the filterMap of the per-row
selector, appended to the accumulator. -/
theorem hcpcs_foldl_filterMap (l : List Tr) (acc : List HcpcsRecord) :
    l.foldl hcpcsStep acc = acc ++ l.filterMap pick2 := by
  induction l generalizing acc with
  | nil => simp
  | cons t ts ih =>
    rw [List.foldl_cons, ih, List.filterMap_cons]
    unfold hcpcsStep pick2
    rcases htds : tds t with _ | ⟨c0, _ | ⟨c1, rest⟩⟩ <;> simp

/-! Claim theorems. -/

/-- C6: given the summary string "Showing 1 to 100 of 8,640 entries", the
offset-strategy total-count extraction (pattern over digits and thousands
separators following "of" and preceding "entries", commas stripped, then
integer conversion) returns exactly 8640. -/
theorem total_count_parses :
    get_total_entries (some "Showing 1 to 100 of 8,640 entries") =
      some 8640 := rfl

/-- C9: the page-parsing operation of the offset harvester is
deterministic: two invocations against the same fixed page body (the same
fetch outcome at the requested offset) yield identical (header, rows,
total) triples. -/
theorem scrape_page_deterministic :
    ∀ (f1 f2 : Nat → FetchResult) (start : Nat), f1 start = f2 start →
      scrape_page f1 start = scrape_page f2 start := by
  intro f1 f2 s h
  unfold scrape_page
  rw [h]

/-- Witness for C9 at a concrete fetch outcome and offset. -/
theorem scrape_page_deterministic_witness :
    scrape_page (fun _ => FetchResult.ok pageStart0) 0 =
      scrape_page (fun _ => FetchResult.ok pageStart0) 0 :=
  scrape_page_deterministic _ _ 0 rfl

/-- C10: in the HCPCS multi-sheet variant, a table row with fewer than two
td cells (including exactly one cell) produces no output record, and every
emitted record keeps only the first two cells, as Code and Description;
further cells are discarded.  The emitted list is exactly the filterMap of
the first-two-cells selector over the rows after the header row. -/
theorem hcpcs_two_cells :
    (∀ (page : Page) (trs : List Tr), page.table = some trs →
        scrape_hcpcs_codes (FetchResult.ok page) =
          some ((trs.drop 1).filterMap pick2)) ∧
    (∀ tr : Tr, (tds tr).length < 2 → pick2 tr = none) := by
  constructor
  · intro page trs ht
    simp only [scrape_hcpcs_codes, ht]
    rw [hcpcs_foldl_filterMap]
    simp
  · intro tr h
    unfold pick2
    rcases htds : tds tr with _ | ⟨c0, _ | ⟨c1, rest⟩⟩
    · rfl
    · rfl
    · rw [htds] at h
      simp only [List.length_cons] at h
      omega

/-- Witness for C10: the fixture table with a header row, a one-cell row
and a three-cell row. -/
theorem hcpcs_two_cells_witness :
    scrape_hcpcs_codes (FetchResult.ok pageHcpcs) =
      some ((trsHcpcs.drop 1).filterMap pick2) ∧
    pick2 trShort = none :=
  ⟨hcpcs_two_cells.1 pageHcpcs trsHcpcs rfl,
   hcpcs_two_cells.2 trShort (by decide)⟩

/-- C5: scrape_details is total and never raises to its caller; any fetch
failure (raised transport exception or non-success status) yields the
all-absent record, and so does a page on which no label matches any of the
known substrings, neither in the table rows nor in the form-groups. -/
theorem detail_best_effort :
    (∀ (fetch : String → FetchResult) (url : String),
        fetch url = FetchResult.connError ∨
          fetch url = FetchResult.httpError →
        scrape_details fetch url = detailAbsent) ∧
    (∀ (fetch : String → FetchResult) (url : String) (page : Page),
        fetch url = FetchResult.ok page → pageMatchFree page = true →
        scrape_details fetch url = detailAbsent) := by
  constructor
  · intro fetch url h
    rcases h with h | h <;> unfold scrape_details <;> rw [h]
  · intro fetch url page hf hm
    unfold pageMatchFree at hm
    rw [Bool.and_eq_true] at hm
    obtain ⟨hmt, hmg⟩ := hm
    rcases ht : page.table with _ | trs <;> rw [ht] at hmt <;>
      simp only [scrape_details, hf, ht]
    · exact detailFromGroups_id _ _ hmg
    · simp only at hmt
      rw [detailFromTable_id detailAbsent trs hmt]
      have hfalse : detailHasAny detailAbsent = false := rfl
      rw [hfalse]
      simp only [Bool.false_eq_true, if_false]
      exact detailFromGroups_id _ _ hmg

/-- Witness for C5: a raised-exception fetch, and a successful fetch of a
page with no table and no form-groups. -/
theorem detail_best_effort_witness :
    scrape_details (fun _ => FetchResult.connError) "u" = detailAbsent ∧
    scrape_details (fun _ => FetchResult.ok emptyPage) "u" = detailAbsent :=
  ⟨detail_best_effort.1 _ "u" (Or.inl rfl),
   detail_best_effort.2 _ "u" emptyPage rfl rfl⟩

/-- Counterexample to C8: a page whose table is present but yields no
truthy field; the form-group fallback is still consulted and fills
Practice_Type, so the record is not produced from the table rows alone. -/
theorem detail_fallback_after_table_cex :
    pageTableAndGroups.table = some [trNameRow] ∧
    scrape_details fetchTG "u" =
      { practiceType := some "GP", licenceType := none,
        licenceNo := none } :=
  ⟨rfl, rfl⟩

/-- C8 as amended: the div-pair fallback is consulted when no table
matches or when the table yields no truthy field; when a table is present
and yields at least one truthy field, the record is produced from the
table rows alone. -/
theorem detail_table_priority :
    (∀ (fetch : String → FetchResult) (url : String) (page : Page)
        (trs : List Tr), fetch url = FetchResult.ok page →
        page.table = some trs →
        detailHasAny (detailFromTable detailAbsent trs) = true →
        scrape_details fetch url = detailFromTable detailAbsent trs) ∧
    (∀ (fetch : String → FetchResult) (url : String) (page : Page)
        (trs : List Tr), fetch url = FetchResult.ok page →
        page.table = some trs →
        detailHasAny (detailFromTable detailAbsent trs) = false →
        scrape_details fetch url =
          detailFromGroups (detailFromTable detailAbsent trs)
            page.formGroups) ∧
    (∀ (fetch : String → FetchResult) (url : String) (page : Page),
        fetch url = FetchResult.ok page → page.table = none →
        scrape_details fetch url =
          detailFromGroups detailAbsent page.formGroups) := by
  refine ⟨?_, ?_, ?_⟩
  · intro fetch url page trs hf ht hAny
    simp only [scrape_details, hf, ht, hAny, if_true]
  · intro fetch url page trs hf ht hAny
    simp only [scrape_details, hf, ht, hAny, Bool.false_eq_true, if_false]
  · intro fetch url page hf ht
    simp only [scrape_details, hf, ht]

/-- Witness for C8 as amended: a table yielding a truthy field, a table
yielding nothing followed by a matching form-group, and a page with no
table. -/
theorem detail_table_priority_witness :
    scrape_details fetchPT "u" = detailFromTable detailAbsent [trPT] ∧
    scrape_details fetchTG "u" =
      detailFromGroups (detailFromTable detailAbsent [trNameRow])
        pageTableAndGroups.formGroups ∧
    scrape_details (fun _ => FetchResult.ok emptyPage) "u" =
      detailFromGroups detailAbsent emptyPage.formGroups :=
  ⟨detail_table_priority.1 fetchPT "u" pagePT [trPT] rfl rfl rfl,
   detail_table_priority.2.1 fetchTG "u" pageTableAndGroups [trNameRow]
     rfl rfl rfl,
   detail_table_priority.2.2 _ "u" emptyPage rfl rfl⟩

/-- On the two-page cycle, the driving loop consumes any amount of fuel
without finishing, from either locator of the cycle. -/
theorem cycle_fuelOut :
    ∀ (fuel : Nat) (acc : List (List String)),
      scrape_category uj0 fetchCycle fuel "A" acc = LoopOut.fuelOut ∧
      scrape_category uj0 fetchCycle fuel "B" acc = LoopOut.fuelOut := by
  intro fuel
  induction fuel with
  | zero => intro acc; exact ⟨rfl, rfl⟩
  | succ n ih =>
    intro acc
    constructor
    · have step : scrape_category uj0 fetchCycle (n + 1) "A" acc =
          scrape_category uj0 fetchCycle n "B" (acc ++ []) := rfl
      rw [step]
      exact (ih (acc ++ [])).2
    · have step : scrape_category uj0 fetchCycle (n + 1) "B" acc =
          scrape_category uj0 fetchCycle n "A" (acc ++ []) := rfl
      rw [step]
      exact (ih (acc ++ [])).1

/-- Counterexample to C1: on a synthetic two-page sequence whose next
links form a cycle ("A" links to "B" and "B" back to "A"), the harvester
does not terminate: no finite fuel makes the driving loop finish.  The
loop guards only against a next locator equal to the current one and keeps
no visited set. -/
theorem pagination_two_cycle_diverges :
    ¬ Terminates uj0 fetchCycle "A" := by
  rintro ⟨fuel, hne⟩
  exact hne (cycle_fuelOut fuel []).1

/-- C1 as amended: the driving loop ends the run at the current page
whenever the next locator cannot be resolved or resolves to the current
locator; in particular a synthetic self-cycle terminates immediately.
(Longer cycles are not guarded against; see the counterexample.) -/
theorem pagination_guard_terminates :
    ∀ (uj : String → String → String) (fetch : String → FetchResult)
      (url : String) (page : Page) (acc : List (List String)) (fuel : Nat),
      fetch url = FetchResult.ok page →
      (next_link uj url page = none ∨ next_link uj url page = some url) →
      ∃ rows, scrape_category uj fetch (fuel + 1) url acc =
        LoopOut.finished rows := by
  intro uj fetch url page acc fuel hf hn
  rcases ht : page.table with _ | trs
  · exact ⟨acc, by simp only [scrape_category, hf, ht]⟩
  · rcases hn with hn | hn
    · exact ⟨acc ++ extractRows trs,
        by simp only [scrape_category, hf, ht, hn]⟩
    · refine ⟨acc ++ extractRows trs, ?_⟩
      simp only [scrape_category, hf, ht, hn]
      simp

/-- Witness for C1 as amended: a page whose rel-next link resolves to the
current locator ends the run after that page. -/
theorem pagination_guard_terminates_witness :
    ∃ rows, scrape_category uj0 fetchSelf 1 "S" [] =
      LoopOut.finished rows :=
  pagination_guard_terminates uj0 fetchSelf "S" pageSelf [] 0 rfl
    (Or.inr rfl)

/-- C3 as amended: a non-success HTTP status on a page fetch terminates
the pagination loop and the rows already collected are returned unchanged;
a connection failure raises an uncaught exception out of the harvester and
the collected rows are not returned. -/
theorem transport_error_policy :
    (∀ (uj : String → String → String) (fetch : String → FetchResult)
        (url : String) (acc : List (List String)) (fuel : Nat),
        fetch url = FetchResult.httpError →
        scrape_category uj fetch (fuel + 1) url acc =
          LoopOut.finished acc) ∧
    (∀ (uj : String → String → String) (fetch : String → FetchResult)
        (url : String) (acc : List (List String)) (fuel : Nat),
        fetch url = FetchResult.connError →
        scrape_category uj fetch (fuel + 1) url acc = LoopOut.raised) := by
  constructor <;> intro uj fetch url acc fuel h <;>
    simp only [scrape_category, h]

/-- Witness for C3 as amended: a status failure returns the accumulated
rows unchanged and a connection failure raises. -/
theorem transport_error_policy_witness :
    scrape_category uj0 (fun _ => FetchResult.httpError) 1 "u" [["kept"]] =
      LoopOut.finished [["kept"]] ∧
    scrape_category uj0 (fun _ => FetchResult.connError) 1 "u" [["kept"]] =
      LoopOut.raised :=
  ⟨transport_error_policy.1 uj0 _ "u" [["kept"]] 0 rfl,
   transport_error_policy.2 uj0 _ "u" [["kept"]] 0 rfl⟩

/-- Counterexample to C3: the first page collects the row "r1", the next
fetch raises a connection exception, and the run ends with the exception
propagating instead of returning the collected rows. -/
theorem transport_conn_error_cex :
    scrape_category uj0 fetchConn 2 "A" [] = LoopOut.raised ∧
    extractRows [{ cells := [thText "H"] }, { cells := [tdText "r1"] }] =
      [["r1"]] :=
  ⟨rfl, rfl⟩

/-- Arity of one enriched row: a marked row loses its last cell and gains
the three detail fields (td count plus two), an unmarked row keeps all
cells and gains three absent values (td count plus three). -/
theorem processRowLogs_length :
    ∀ (uj : String → String → String) (fetch : String → FetchResult)
      (url : String) (tr : Tr) (out : List (Option String)),
      processRowLogs uj fetch url tr = some out →
      out.length = (tds tr).length +
        (if rowHasMarker tr then 2 else 3) := by
  intro uj fetch url tr out h
  rcases hc : (tds tr).getLast? with _ | lastCell
  · simp only [processRowLogs, hc] at h
    exact Option.noConfusion h
  · have hne : tds tr ≠ [] := by
      intro he
      rw [he] at hc
      simp at hc
    have hlen : 0 < (tds tr).length := List.length_pos.mpr hne
    have hrm : rowHasMarker tr =
        (lastCell.anchors.find? isBtnInfo).isSome := by
      unfold rowHasMarker
      rw [hc]
    rcases hfm : lastCell.anchors.find? isBtnInfo with _ | a
    · simp only [processRowLogs, hc, hfm, Option.some.injEq] at h
      rw [hrm, hfm, ← h]
      simp [List.length_append, List.length_map]
    · simp only [processRowLogs, hc, hfm] at h
      rcases hv : viewLinkOf lastCell with _ | vl <;>
        simp only [hv, Option.some.injEq] at h <;>
        rw [hrm, hfm, ← h] <;>
        simp [List.length_append, List.length_dropLast,
          List.length_map] <;>
        omega

/-- C2 as amended: for every data row of the enrichment-enabled harvester:
a row whose last cell carries the detail-link marker loses that cell and
gains the three detail fields, giving arity td-count plus two; a row with
no marker keeps every cell and gains three absent values, giving arity
td-count plus three; a marked row whose td count equals the length of the
original header (whose last column is "View") matches the arity of the
extended Header.  Rows of equal td count therefore share an arity only
when marker presence is uniform. -/
theorem enrichment_arity :
    (∀ (uj : String → String → String) (fetch : String → FetchResult)
        (url : String) (tr : Tr) (out : List (Option String)),
        processRowLogs uj fetch url tr = some out →
        out.length = (tds tr).length +
          (if rowHasMarker tr then 2 else 3)) ∧
    (∀ (uj : String → String → String) (fetch : String → FetchResult)
        (url : String) (tr : Tr) (out : List (Option String))
        (hdr : List String) (s : String),
        processRowLogs uj fetch url tr = some out →
        rowHasMarker tr = true →
        (tds tr).length = hdr.length →
        hdr.getLast? = some s → strLower s = "view" →
        out.length = (extendedHeaderLogs hdr).length) := by
  constructor
  · exact processRowLogs_length
  · intro uj fetch url tr out hdr s h hm hlen hgl hs
    have h1 := processRowLogs_length uj fetch url tr out h
    rw [hm] at h1
    simp at h1
    have hne : hdr ≠ [] := by
      intro he
      rw [he] at hgl
      simp at hgl
    have hl : 0 < hdr.length := List.length_pos.mpr hne
    unfold extendedHeaderLogs
    rw [hgl]
    simp only [if_pos hs]
    simp [List.length_append, List.length_dropLast]
    omega

/-- Witness for C2 as amended, on the mixed fixture: the marked row has
arity two above its td count, the unmarked row three above, and the marked
row matches the extended header built from a Name/View header. -/
theorem enrichment_arity_witness :
    rowMarkOut.length =
      (tds trMark).length + (if rowHasMarker trMark then 2 else 3) ∧
    rowNoMarkOut.length =
      (tds trNoMark).length + (if rowHasMarker trNoMark then 2 else 3) ∧
    rowMarkOut.length = (extendedHeaderLogs ["Name", "View"]).length :=
  ⟨enrichment_arity.1 uj0 fetchMix "U" trMark rowMarkOut rfl,
   enrichment_arity.1 uj0 fetchMix "U" trNoMark rowNoMarkOut rfl,
   enrichment_arity.2 uj0 fetchMix "U" trMark rowMarkOut ["Name", "View"]
     "View" rfl rfl rfl rfl rfl⟩

/-- Counterexample to C2: one harvest run over a page holding a marked and
an unmarked data row of equal td count emits two rows of different
arities, so not every emitted row has the same arity as every other. -/
theorem enrichment_arity_cex :
    scrapeLogsLoop uj0 fetchMix 1 "U" [] =
      LoopOut.finished [rowMarkOut, rowNoMarkOut] ∧
    rowMarkOut.length ≠ rowNoMarkOut.length :=
  ⟨rfl, by decide⟩

/-- C4 as amended: a fetch failure on the initial page (None header or
None data) aborts the whole harvest with no output; a non-success status
on a later offset page (None rows) contributes nothing and the loop
continues with the remaining offsets unchanged; a connection exception on
a later offset page propagates out of the run.  No page is fetched more
than once per run. -/
theorem offset_failure_policy :
    (∀ (fetch : Nat → FetchResult) (ho : Option (List String))
        (dopt : Option (List (List String))) (t : Option Nat),
        scrape_page fetch 0 = PageOut.ret ho dopt t →
        ho = none ∨ dopt = none →
        main_harvest fetch = MainOut.aborted) ∧
    (∀ (fetch : Nat → FetchResult) (s : Nat) (rest : List Nat)
        (acc : List (List String)) (ho : Option (List String))
        (t : Option Nat),
        scrape_page fetch s = PageOut.ret ho none t →
        offsetLoop fetch (s :: rest) acc = offsetLoop fetch rest acc) ∧
    (∀ (fetch : Nat → FetchResult) (s : Nat) (rest : List Nat)
        (acc : List (List String)),
        scrape_page fetch s = PageOut.raised →
        offsetLoop fetch (s :: rest) acc = none) := by
  refine ⟨?_, ?_, ?_⟩
  · intro fetch ho dopt t hret hnone
    simp only [main_harvest, hret]
    rcases hnone with h1 | h1 <;> subst h1
    · rfl
    · cases ho <;> rfl
  · intro fetch s rest acc ho t hret
    simp only [offsetLoop, hret]
  · intro fetch s rest acc hret
    simp only [offsetLoop, hret]

/-- Witness for C4 as amended: an all-failing oracle aborts the harvest
after the initial page; on a single later offset a status failure skips
the page and a connection failure propagates. -/
theorem offset_failure_policy_witness :
    main_harvest (fun _ => FetchResult.httpError) = MainOut.aborted ∧
    offsetLoop (fun _ => FetchResult.httpError) [100] [["r"]] =
      offsetLoop (fun _ => FetchResult.httpError) [] [["r"]] ∧
    offsetLoop (fun _ => FetchResult.connError) [100] [] = none :=
  ⟨offset_failure_policy.1 _ none none none rfl (Or.inl rfl),
   offset_failure_policy.2.1 _ 100 [] [["r"]] none none rfl,
   offset_failure_policy.2.2 _ 100 [] [] rfl⟩

/-- Counterexample to C4: the offset run whose page at start 100 fails
with a non-success status still fetches the page at start 200 and emits
its row, so a fetch failure does not abort the remainder of the
harvest. -/
theorem offset_skip_continue_cex :
    fetchOffsets 100 = FetchResult.httpError ∧
    main_harvest fetchOffsets = MainOut.wrote ["H"] [["r0"], ["r200"]] :=
  ⟨rfl, rfl⟩

/-- Counterexample to C7: when the first text-matching anchor of the
pagination container is marked disabled, the code does not consider the
later enabled "next" anchor of the container (it falls through to the
rel-next fallback, here absent), while the claimed search for an anchor
that both matches and is enabled would return it. -/
theorem next_link_disabled_first_cex :
    next_link uj0 "u" pageTwoNext = none ∧
    nextLinkClaim uj0 "u" pageTwoNext = some "p3" :=
  ⟨rfl, rfl⟩

/-- The rel-next fallback of the code-side next-link computation agrees
with its bind-style rendering in the amended-claim-side computation. -/
theorem next_link_fallback_eq (uj : String → String → String)
    (url : String) (ancs : List Anchor) :
    (match ancs.find? (fun a => a.rel.contains "next") with
     | some a =>
       match a.href with
       | some h => if h = "" then none else some (uj url h)
       | none => none
     | none => none) =
    Option.orElse none (fun _ =>
      (ancs.find? (fun a => a.rel.contains "next")).bind
        (anchorLink uj url)) := by
  cases hf : ancs.find? (fun a => a.rel.contains "next") with
  | none => rfl
  | some fa =>
    obtain ⟨ft, fh, fc, fr⟩ := fa
    cases fh <;> rfl

/-- The pagination-container value of the code-side next-link computation
agrees with its rendering through anchorLink. -/
theorem next_link_container_eq (uj : String → String → String)
    (url : String) (o : Option Anchor) :
    (match o with
     | some a =>
       if a.classes.contains "disabled" then none
       else
         match a.href with
         | some h => if h = "" then none else some (uj url h)
         | none => none
     | none => none) =
    (match o with
     | some a =>
       if a.classes.contains "disabled" then none
       else anchorLink uj url a
     | none => none) := by
  cases o with
  | none => rfl
  | some a =>
    obtain ⟨yt, yh, yc, yr⟩ := a
    cases yh <;> rfl

/-- The match on the container value against the fallback agrees with the
orElse composition of the amended-claim-side computation. -/
theorem next_link_compose_eq (uj : String → String → String)
    (url : String) (ancs : List Anchor) (C : Option String) :
    (match C with
     | some l => some l
     | none =>
       match ancs.find? (fun a => a.rel.contains "next") with
       | some a =>
         match a.href with
         | some h => if h = "" then none else some (uj url h)
         | none => none
       | none => none) =
    Option.orElse C (fun _ =>
      (ancs.find? (fun a => a.rel.contains "next")).bind
        (anchorLink uj url)) := by
  cases C with
  | some l => rfl
  | none => exact next_link_fallback_eq uj url ancs

/-- C7 as amended: the next-page locator takes the FIRST anchor of the
pagination container whose visible text contains "next" case-insensitively
and uses it only when it is not marked disabled and has a truthy href
(resolved against the current page URL); in every other case — no
container, no text-matching anchor, or that first anchor disabled or
without a usable href — the whole page is searched for an anchor with rel
"next"; if that also fails the result is no-next-page. -/
theorem next_link_order :
    ∀ (uj : String → String → String) (url : String) (page : Page),
      next_link uj url page = nextLinkAmended uj url page := by
  intro uj url page
  unfold next_link nextLinkAmended firstTextNextAnchor
  cases hp : page.paginateAnchors with
  | none => exact next_link_fallback_eq uj url page.anchors
  | some pl =>
    refine Eq.trans
      (next_link_compose_eq uj url page.anchors
        (match pl.find? (fun a => textMatchesNext a.text) with
         | some a =>
           if a.classes.contains "disabled" then none
           else
             match a.href with
             | some h => if h = "" then none else some (uj url h)
             | none => none
         | none => none)) ?_
    rw [next_link_container_eq uj url]
    rfl

end Scrape
